import Mathlib

set_option autoImplicit false

/-!
Verification development for the "life-coordinates" interactive 3D visual toy.

The repository drives an animation loop over three kinds of entities:
a dense foliage particle field (GPU vertex shader), an ambient gold-dust
field, and draggable photo ornaments.  A single morph-progress scalar,
a gesture classifier and a scene-rotation controller tie them together.

This file gives a shallow embedding of those per-frame update functions and
event handlers and proves (or refutes) the stated behavioural properties.
Frame-level control logic that only compares and combines rational constants
is embedded over `ℚ` (so concrete runs can be decided by the kernel); the
shader / per-frame geometry maths, which uses `sin`, `cos` and `sqrt`, is
embedded over `ℝ`.
-/

namespace LifeCoords

/-- Discrete morph target states (`types.ts`, used throughout the app):
`TREE_SHAPE` is the axis/tree arrangement, `SCATTERED` the spherical cloud. -/
inductive TreeMorphState where
  | TREE_SHAPE
  | SCATTERED
deriving DecidableEq

/-- `THREE.MathUtils.lerp (x, y, t) = x + (y - x) * t`, over `ℚ`. -/
def lerpQ (x y t : ℚ) : ℚ := x + (y - x) * t

/-- Mutable per-scene state referenced by `Scene.useFrame` (`Scene.tsx`):
`progressRef`, `angularVelocity`, `groupRef.current.rotation.y`, `lastHandX`. -/
structure SceneState where
  progress : ℚ
  angularVelocity : ℚ
  rotationY : ℚ
  lastHandX : ℚ
deriving DecidableEq

/-- `Scene.tsx` line 64: one frame of morph-progress easing,
`progress := lerp (progress, target, min (delta * 3.5, 1.0))`. -/
def progressStep (p target δ : ℚ) : ℚ := lerpQ p target (min (δ * (7/2)) 1)

/-- `Scene.useFrame` (`Scene.tsx` lines 63-91): eases the morph progress,
then (unless a photo drag is active, which zeroes the velocity and returns
early) adds the gesture horizontal delta, applies friction `0.96`, eases the
velocity toward the idle drift speed `0.06` when below it with no input, and
advances the rotation angle by `velocity * delta`. -/
def useFrameScene (targetProgress : ℚ)
    (isDraggingPhoto isDraggingScene isHandActive : Bool)
    (handX δ : ℚ) (s : SceneState) : SceneState :=
  let p := progressStep s.progress targetProgress δ
  if isDraggingPhoto then
    { s with progress := p, angularVelocity := 0 }
  else
    let friction : ℚ := 96/100
    let v0 := s.angularVelocity
    let vh :=
      if !isDraggingScene && isHandActive then
        (v0 + (handX - s.lastHandX) * 18, handX)
      else
        (v0, s.lastHandX)
    let v2 := vh.1 * friction
    let idleSpeed : ℚ := 6/100
    let v3 :=
      if !isDraggingScene && !isHandActive then
        if |v2| < idleSpeed then lerpQ v2 idleSpeed (5/100) else v2
      else v2
    { progress := p, angularVelocity := v3,
      rotationY := s.rotationY + v3 * δ, lastHandX := vh.2 }

/-- Iterated morph-progress easing: the value of `progressRef` after `n`
frames with a fixed target and per-frame times `δ 0, δ 1, …`. -/
def progressIter (target : ℚ) (δ : ℕ → ℚ) (p0 : ℚ) : ℕ → ℚ
  | 0 => p0
  | n + 1 => progressStep (progressIter target δ p0 n) target (δ n)

/-- Iterated scene frames with no drag input, no gesture input and no photo
drag (all three input flags false). -/
def sceneNoInputIter (targetProgress handX δ : ℚ) (s : SceneState) : ℕ → SceneState
  | 0 => s
  | n + 1 => useFrameScene targetProgress false false false handX δ (sceneNoInputIter targetProgress handX δ s n)

/-- One 2D hand landmark from the landmark stream (coordinates modelled as
rationals, standing for the floating-point values of the source). -/
structure Landmark where
  x : ℚ
  y : ℚ
deriving DecidableEq

/-- Squared Euclidean distance between two landmarks.  The source's
`getDistance` takes a square root, but every use compares
`getDistance p q > getDistance r s * k` with `k ≥ 0`, which by
`getDistance_mul_lt_iff` below is equivalent to the squared
comparison `distSq r s * k^2 < distSq p q`; the squared form keeps the
classifier computable. -/
def distSq (p1 p2 : Landmark) : ℚ := (p1.x - p2.x)^2 + (p1.y - p2.y)^2

/-- `GestureManager.getDistance` (`Foliage.tsx` lines 177-179):
`sqrt ((p1.x - p2.x)^2 + (p1.y - p2.y)^2)`. -/
noncomputable def getDistance (p1 p2 : Landmark) : ℝ :=
  Real.sqrt (((p1.x : ℝ) - (p2.x : ℝ))^2 + ((p1.y : ℝ) - (p2.y : ℝ))^2)

/-- One frame's detected hand: the landmark array, indexed by position
(indices 0-20 are meaningful). -/
structure HandFrame where
  lm : ℕ → Landmark

/-- The four non-thumb fingertip landmark indices `[8, 12, 16, 20]`. -/
def fingerTips : List ℕ := [8, 12, 16, 20]

/-- Extended-finger count (`GestureManager.onResults`, `Foliage.tsx` lines
199-211): reference distance is wrist (landmark 0) to palm centre (landmark
9); each of the four fingertips counts when its distance to the wrist
exceeds `1.7 ×` the reference, the thumb tip (landmark 4) when it exceeds
`1.3 ×` the reference.  Comparisons are in squared form (see `distSq`). -/
def extendedFingers (h : HandFrame) : ℕ :=
  let wrist := h.lm 0
  let palmCenter := h.lm 9
  let refSq := distSq wrist palmCenter
  let fromTips := (fingerTips.filter fun tipIdx =>
    decide (refSq * (17/10)^2 < distSq (h.lm tipIdx) wrist)).length
  let thumbTip := h.lm 4
  fromTips + (if refSq * (13/10)^2 < distSq thumbTip wrist then 1 else 0)

/-- The shared mutable scalars the gesture pipeline publishes for the render
loop: `isHandActiveRef` and `handXRef`. -/
structure GestureRefs where
  isHandActive : Bool
  handX : ℚ
deriving DecidableEq

/-- `GestureManager.onResults` (`Foliage.tsx` lines 193-225): with a
detected hand, publish activity and the hand x-position, then classify:
`extendedFingers ≥ 3` emits `SCATTERED`, `extendedFingers ≤ 1` emits
`TREE_SHAPE`, otherwise nothing is emitted.  With no detected hand, mark
the hand inactive and emit nothing. -/
def onResults (refs : GestureRefs) (frame : Option HandFrame) :
    GestureRefs × Option TreeMorphState :=
  match frame with
  | some h =>
    let refs' : GestureRefs := { isHandActive := true, handX := (h.lm 0).x }
    let n := extendedFingers h
    if 3 ≤ n then (refs', some TreeMorphState.SCATTERED)
    else if n ≤ 1 then (refs', some TreeMorphState.TREE_SHAPE)
    else (refs', none)
  | none => ({ refs with isHandActive := false }, none)

/-- Effect of an emission on the app's discrete state
(`App.handleGestureStateChange` calls `setTreeState` only when the
classifier emits): `none` retains the previous state. -/
def applyEmission (current : TreeMorphState) (e : Option TreeMorphState) : TreeMorphState :=
  e.getD current

/-- A 3-component real vector (GLSL `vec3` / `THREE.Vector3`). -/
@[ext]
structure Vec3 where
  x : ℝ
  y : ℝ
  z : ℝ

instance : Add Vec3 := ⟨fun a b => ⟨a.x + b.x, a.y + b.y, a.z + b.z⟩⟩

instance : Sub Vec3 := ⟨fun a b => ⟨a.x - b.x, a.y - b.y, a.z - b.z⟩⟩

instance : SMul ℝ Vec3 := ⟨fun c v => ⟨c * v.x, c * v.y, c * v.z⟩⟩

/-- GLSL `length`. -/
noncomputable def Vec3.length (v : Vec3) : ℝ := Real.sqrt (v.x^2 + v.y^2 + v.z^2)

/-- GLSL `normalize v = v / length v` (the zero vector maps to zero here,
standing in for the source's undefined value at zero length). -/
noncomputable def Vec3.normalize (v : Vec3) : Vec3 := (1 / v.length) • v

/-- `THREE.MathUtils.lerp` over `ℝ`. -/
noncomputable def lerpR (x y t : ℝ) : ℝ := x + (y - x) * t

/-- `THREE.Vector3.lerp (v, alpha)`: componentwise lerp. -/
noncomputable def lerpV (a b : Vec3) (t : ℝ) : Vec3 :=
  ⟨lerpR a.x b.x t, lerpR a.y b.y t, lerpR a.z b.z t⟩

/-- GLSL `clamp`. -/
noncomputable def clampR (x lo hi : ℝ) : ℝ := min (max x lo) hi

/-- GLSL `smoothstep (edge0, edge1, x)`. -/
noncomputable def smoothstepG (edge0 edge1 x : ℝ) : ℝ :=
  let t := clampR ((x - edge0) / (edge1 - edge0)) 0 1
  t * t * (3 - 2 * t)

/-- GLSL `mix (a, b, t) = a * (1 - t) + b * t`. -/
noncomputable def mixR (a b t : ℝ) : ℝ := a * (1 - t) + b * t

/-- Componentwise GLSL `mix` on `vec3`. -/
noncomputable def mixV (a b : Vec3) (t : ℝ) : Vec3 :=
  ⟨mixR a.x b.x t, mixR a.y b.y t, mixR a.z b.z t⟩

/-- The foliage vertex shader's position computation (`Foliage.tsx` lines
20-41): blend factor `t = smoothstep (0, 1, uProgress)`, base interpolation
`mix (aScatterPos, aTreePos, t)`, explosion impulse
`smoothstep (0.8, 0, t) * smoothstep (0, 0.5, t) * 1200` along
`normalize aScatterPos`, per-axis chaotic jitter scaled by `(1 - t) * 250`,
and a breathing offset `sin (uTime * 1.5 + aPhase) * 15 * (1.1 - t) * 0.2`
along the current radial direction. -/
noncomputable def foliagePosition (uTime uProgress : ℝ)
    (aScatterPos aTreePos : Vec3) (aPhase : ℝ) : Vec3 :=
  let t := smoothstepG 0 1 uProgress
  let inverseT := 1 - t
  let base := mixV aScatterPos aTreePos t
  let explosion := smoothstepG (8/10) 0 t * smoothstepG 0 (5/10) t * 1200
  let p1 := base + explosion • aScatterPos.normalize
  let chaos := inverseT * 250
  let p2 : Vec3 :=
    ⟨p1.x + Real.sin (uTime * (5/10) + aPhase * 2) * chaos,
     p1.y + Real.cos (uTime * (4/10) + aPhase * (31/10)) * chaos,
     p1.z + Real.sin (uTime * (6/10) + aPhase * (15/10)) * chaos⟩
  let breathe := Real.sin (uTime * (15/10) + aPhase) * 15 * (11/10 - t)
  p2 + (breathe * (2/10)) • p2.normalize

/-- The foliage vertex shader's alpha (`Foliage.tsx` line 64):
`(0.75 + 0.25 * (1 - t)) * smoothstep (0, 0.1, uProgress * 0.5 + 0.5)`. -/
noncomputable def foliageAlpha (uProgress : ℝ) : ℝ :=
  let t := smoothstepG 0 1 uProgress
  let inverseT := 1 - t
  (75/100 + 25/100 * inverseT) * smoothstepG 0 (1/10) (uProgress * (5/10) + 5/10)

/-- Per-ornament state of one `PhotoItem` (`PhotoOrnaments.tsx`): the React
state flags, the recorded grab offset, the `DualPosition` data record
(`tree` is mutable — overwritten by drag — `scatter`, `phaseOffset`,
`scale` are fixed at creation), and the rendered mesh position / scale /
material opacity. -/
structure PhotoState where
  isDragging : Bool
  hovered : Bool
  dragOffset : Vec3
  dataTree : Vec3
  dataScatter : Vec3
  phaseOffset : ℝ
  dataScale : ℝ
  meshPos : Vec3
  meshScale : ℝ
  opacity : ℝ

/-- `PhotoItem.handlePointerDown` (`PhotoOrnaments.tsx` lines 47-68): locks
the drag plane through the ornament's world position, records the grab
offset `worldPos - intersection` when the pointer ray hits the plane, and
starts the drag.  `hit` is the ray/drag-plane intersection result. -/
def handlePointerDown (worldPos : Vec3) (hit : Option Vec3) (s : PhotoState) : PhotoState :=
  let s1 := match hit with
    | some inter => { s with dragOffset := worldPos - inter }
    | none => s
  { s1 with isDragging := true }

/-- `PhotoItem.handlePointerMove` (`PhotoOrnaments.tsx` lines 70-81): while
dragging, re-intersect the pointer ray with the fixed drag plane; on a hit,
overwrite the ornament's tree position with the world target
`intersection + dragOffset` transformed into the parent frame.
`worldToLocal` is the parent group's world-to-local transform. -/
def handlePointerMove (worldToLocal : Vec3 → Vec3) (hit : Option Vec3) (s : PhotoState) : PhotoState :=
  if s.isDragging then
    match hit with
    | some inter => { s with dataTree := worldToLocal (inter + s.dragOffset) }
    | none => s
  else s

/-- `PhotoItem.handlePointerUp` (`PhotoOrnaments.tsx` lines 83-92):
ends the drag (no-op when not dragging). -/
def handlePointerUp (s : PhotoState) : PhotoState :=
  if s.isDragging then { s with isDragging := false } else s

/-- A sequence of pointer-move events, each with its ray/drag-plane
intersection result. -/
def applyMoves (worldToLocal : Vec3 → Vec3) (hits : List Vec3) (s : PhotoState) : PhotoState :=
  hits.foldl (fun st h => handlePointerMove worldToLocal (some h) st) s

/-- `PhotoItem.handleDoubleClick` (`PhotoOrnaments.tsx` lines 95-98): stops
propagation and invokes `onClick url`, with no drag-state check.  The second
component lists the photo-click callback invocations the handler performs. -/
def handleDoubleClick {U : Type} (url : U) (s : PhotoState) : PhotoState × List U :=
  (s, [url])

open Classical in
/-- `THREE.MathUtils.smoothstep (x, min, max)`: returns `0` below `min`,
`1` above `max`, and the Hermite cubic in between. -/
noncomputable def smoothstepT (x mn mx : ℝ) : ℝ :=
  if x ≤ mn then 0
  else if mx ≤ x then 1
  else
    let y := (x - mn) / (mx - mn)
    y * y * (3 - 2 * y)

/-- The logical target position computed inside `PhotoItem.useFrame`
(`PhotoOrnaments.tsx` lines 105-126): smoothstepped progress, per-axis
chaos sinusoids scaled by `inverseEase * 150`, base lerp from scatter to
tree, plus the floating offset (amplitude `15 + inverseEase * 60`,
suppressed to zero while dragging). -/
noncomputable def photoTargetPos (t progress : ℝ) (s : PhotoState) : Vec3 :=
  let easeProgress := smoothstepT progress 0 1
  let inverseEase := 1 - easeProgress
  let chaosX := Real.sin (t * (4/10) + s.phaseOffset) * 150 * inverseEase
  let chaosY := Real.cos (t * (3/10) + s.phaseOffset) * 150 * inverseEase
  let chaosZ := Real.sin (t * (5/10) + s.phaseOffset * 2) * 150 * inverseEase
  let baseTargetX := lerpR s.dataScatter.x s.dataTree.x easeProgress + chaosX
  let baseTargetY := lerpR s.dataScatter.y s.dataTree.y easeProgress + chaosY
  let baseTargetZ := lerpR s.dataScatter.z s.dataTree.z easeProgress + chaosZ
  let floatFactor : ℝ := if s.isDragging then 0 else 1
  let floatAmp := (15 + inverseEase * 60) * floatFactor
  let floatY := Real.sin (t * (8/10) + s.phaseOffset) * floatAmp
  let floatX := Real.cos (t * (5/10) + s.phaseOffset) * floatAmp * (5/10)
  ⟨baseTargetX + floatX, baseTargetY + floatY, baseTargetZ⟩

/-- `PhotoItem.useFrame` (`PhotoOrnaments.tsx` lines 100-149): the rendered
position lerps toward `photoTargetPos` with rate `0.3` while dragging and
`0.08` otherwise; the scale lerps toward
`scale * pulse * globalScale * feedbackScale * scatterShrink` with rate
`0.15`; the opacity lerps toward
`(isDragging ? 1.0 : 0.7) + 0.3 * easeProgress` with rate `0.1`.
(The billboard orientation `lookAt` is not modelled.) -/
noncomputable def photoUseFrame (t progress globalScale : ℝ) (s : PhotoState) : PhotoState :=
  let easeProgress := smoothstepT progress 0 1
  let target := photoTargetPos t progress s
  let lerpRate : ℝ := if s.isDragging then 3/10 else 8/100
  let newPos := lerpV s.meshPos target lerpRate
  let pulse := 1 + Real.sin (t * (15/10) + s.phaseOffset) * (4/100) * easeProgress
  let scatterShrink := 8/10 + (2/10) * easeProgress
  let feedbackScale : ℝ := if s.hovered || s.isDragging then 14/10 else 1
  let targetScaleValue := s.dataScale * pulse * globalScale * feedbackScale * scatterShrink
  let nextScale := lerpR s.meshScale targetScaleValue (15/100)
  let targetOpacity := (if s.isDragging then (1 : ℝ) else 7/10) + (3/10) * easeProgress
  { s with meshPos := newPos, meshScale := nextScale,
           opacity := lerpR s.opacity targetOpacity (1/10) }

/-- The photo-list reconciliation effect (`PhotoOrnaments.tsx` lines
189-212): keep previous ornaments whose url is still in `images`, and
append a freshly generated ornament for each url of `images` that has no
existing ornament.  `gen` stands for the randomized `DualPosition`
construction (`getOffAxisPosition` / `getSpherePosition` / random phase). -/
def updatePhotoData {U α : Type} [DecidableEq U] (gen : U → α)
    (images : List U) (prev : List (U × α)) : List (U × α) :=
  let existingUrls := prev.map Prod.fst
  let newImages := images.filter fun url => decide (url ∉ existingUrls)
  let newItems := newImages.map fun url => (url, gen url)
  let filteredPrev := prev.filter fun p => decide (p.1 ∈ images)
  filteredPrev ++ newItems

/-- The gold-dust uniforms and the smoothed pointer position
(`GoldDust.tsx`): `uTime`, `uMouse`, `uHover` and `mousePos3D`. -/
structure DustState where
  uTime : ℝ
  uMouse : Vec3
  uHover : ℝ
  mousePos3D : Vec3

/-- `GoldDust.useFrame` (`GoldDust.tsx` lines 89-103): `hit` is the
ray/mouse-plane intersection result written into the freshly constructed
`target` vector.  The source guards the update with `if (target)`, which
tests the (always non-null) `Vector3` object rather than the return value
of `intersectPlane`, so the branch body runs every frame: `mousePos3D`
lerps toward `target` (the zero vector when the intersection failed),
`uMouse` copies it, and `uHover` is set to `1.0`. -/
noncomputable def goldDustFrame (time : ℝ) (hit : Option Vec3) (s : DustState) : DustState :=
  let target : Vec3 := hit.getD ⟨0, 0, 0⟩
  let m := lerpV s.mousePos3D target (1/10)
  { uTime := time, mousePos3D := m, uMouse := m, uHover := 1 }

/-- The dust vertex shader's ambient drift (`GoldDust.tsx` lines 19-21):
`t = uTime * 0.4`, `pos.y += sin (t + aPhase) * 40`,
`pos.x += cos (t * 0.5 + aPhase) * 20`. -/
noncomputable def dustBase (uTime aPhase : ℝ) (pos : Vec3) : Vec3 :=
  let t := uTime * (4/10)
  ⟨pos.x + Real.cos (t * (5/10) + aPhase) * 20,
   pos.y + Real.sin (t + aPhase) * 40,
   pos.z⟩

open Classical in
/-- The dust vertex shader's position (`GoldDust.tsx` lines 16-31): the
drifted position is pulled toward `uMouse` when its distance is below the
attraction radius `1200` and `uHover > 0.5`, by
`normalize (uMouse - pos) * (1 - d / 1200)^2 * 300`. -/
noncomputable def dustPosition (uTime : ℝ) (uMouse : Vec3) (uHover aPhase : ℝ) (pos0 : Vec3) : Vec3 :=
  let p1 := dustBase uTime aPhase pos0
  let d := (p1 - uMouse).length
  let attractRadius : ℝ := 1200
  if d < attractRadius ∧ uHover > 5/10 then
    let dir := (uMouse - p1).normalize
    let strength := (1 - d / attractRadius)^2
    p1 + (strength * 300) • dir
  else p1

/-- A concrete ornament state with an active drag, for counterexamples. -/
noncomputable def draggingPhotoState : PhotoState :=
  ⟨true, false, ⟨0, 0, 0⟩, ⟨0, 0, 0⟩, ⟨0, 0, 0⟩, 0, 0, ⟨0, 0, 0⟩, 0, 0⟩

/-- A concrete idle ornament state, for witnesses. -/
noncomputable def idlePhotoState : PhotoState :=
  ⟨false, false, ⟨0, 0, 0⟩, ⟨0, 0, 0⟩, ⟨0, 0, 0⟩, 0, 0, ⟨0, 0, 0⟩, 0, 0⟩

/-- The initial gold-dust state (uniform values before the first frame). -/
noncomputable def dustInit : DustState := ⟨0, ⟨0, 0, 0⟩, 0, ⟨0, 0, 0⟩⟩

/-- Concrete open-hand frame for witnesses: wrist and thumb at the origin,
palm centre at `(1, 0)`, all four fingertips at `(2, 0)`. -/
def frameOpenHand : HandFrame :=
  ⟨fun i => if i = 9 then ⟨1, 0⟩
    else if i = 8 ∨ i = 12 ∨ i = 16 ∨ i = 20 then ⟨2, 0⟩
    else ⟨0, 0⟩⟩

/-- Concrete fist frame for witnesses: every landmark at the origin. -/
def frameFist : HandFrame := ⟨fun _ => ⟨0, 0⟩⟩

/-- Concrete two-finger frame for witnesses: palm centre at `(1, 0)`,
fingertips 8 and 12 at `(2, 0)`, everything else at the origin. -/
def frameTwoFingers : HandFrame :=
  ⟨fun i => if i = 9 then ⟨1, 0⟩
    else if i = 8 ∨ i = 12 then ⟨2, 0⟩
    else ⟨0, 0⟩⟩

@[simp] lemma Vec3.add_x (a b : Vec3) : (a + b).x = a.x + b.x := rfl

@[simp] lemma Vec3.add_y (a b : Vec3) : (a + b).y = a.y + b.y := rfl

@[simp] lemma Vec3.add_z (a b : Vec3) : (a + b).z = a.z + b.z := rfl

@[simp] lemma Vec3.sub_x (a b : Vec3) : (a - b).x = a.x - b.x := rfl

@[simp] lemma Vec3.sub_y (a b : Vec3) : (a - b).y = a.y - b.y := rfl

@[simp] lemma Vec3.sub_z (a b : Vec3) : (a - b).z = a.z - b.z := rfl

@[simp] lemma Vec3.smul_x (c : ℝ) (v : Vec3) : (c • v).x = c * v.x := rfl

@[simp] lemma Vec3.smul_y (c : ℝ) (v : Vec3) : (c • v).y = c * v.y := rfl

@[simp] lemma Vec3.smul_z (c : ℝ) (v : Vec3) : (c • v).z = c * v.z := rfl

@[simp] lemma Vec3.eta (v : Vec3) : (⟨v.x, v.y, v.z⟩ : Vec3) = v := rfl

lemma Vec3.length_nonneg (v : Vec3) : 0 ≤ v.length := Real.sqrt_nonneg _

lemma Vec3.length_smul (c : ℝ) (v : Vec3) : (c • v).length = |c| * v.length := by
  simp only [Vec3.length, Vec3.smul_x, Vec3.smul_y, Vec3.smul_z]
  rw [show (c * v.x)^2 + (c * v.y)^2 + (c * v.z)^2 = c^2 * (v.x^2 + v.y^2 + v.z^2) by ring,
    Real.sqrt_mul (sq_nonneg c), Real.sqrt_sq_eq_abs]

lemma Vec3.length_eq_zero_iff (v : Vec3) : v.length = 0 ↔ v = ⟨0, 0, 0⟩ := by
  rw [Vec3.length, Real.sqrt_eq_zero (by positivity)]
  constructor
  · intro h
    have hx : v.x = 0 := by nlinarith [sq_nonneg v.x, sq_nonneg v.y, sq_nonneg v.z]
    have hy : v.y = 0 := by nlinarith [sq_nonneg v.x, sq_nonneg v.y, sq_nonneg v.z]
    have hz : v.z = 0 := by nlinarith [sq_nonneg v.x, sq_nonneg v.y, sq_nonneg v.z]
    cases v
    simp_all
  · intro h
    rw [h]
    norm_num

lemma Vec3.length_normalize (v : Vec3) (hv : v ≠ ⟨0, 0, 0⟩) : v.normalize.length = 1 := by
  have h0 : v.length ≠ 0 := fun h => hv ((Vec3.length_eq_zero_iff v).1 h)
  have hpos : 0 < v.length := lt_of_le_of_ne (Vec3.length_nonneg v) (Ne.symm h0)
  rw [Vec3.normalize, Vec3.length_smul, abs_of_nonneg (by positivity), one_div,
    inv_mul_cancel₀ h0]

lemma Vec3.sub_eq_zero_iff (a b : Vec3) : a - b = ⟨0, 0, 0⟩ ↔ a = b := by
  constructor
  · intro h
    have hx := congrArg Vec3.x h
    have hy := congrArg Vec3.y h
    have hz := congrArg Vec3.z h
    simp only [Vec3.sub_x, Vec3.sub_y, Vec3.sub_z] at hx hy hz
    cases a; cases b
    simp_all [sub_eq_zero]
  · intro h
    rw [h]
    ext <;> simp

/-- The comparisons of `GestureManager.onResults` are of the shape
`getDistance p q > getDistance r s * k` with `k ≥ 0`; they coincide with
the squared comparisons used by `extendedFingers`. -/
lemma getDistance_mul_lt_iff (p1 p2 q1 q2 : Landmark) (k : ℚ) (hk : 0 ≤ k) :
    getDistance p1 p2 * (k : ℝ) < getDistance q1 q2 ↔
      distSq p1 p2 * k^2 < distSq q1 q2 := by
  have h1 : getDistance p1 p2 = Real.sqrt ((distSq p1 p2 : ℚ) : ℝ) := by
    unfold getDistance distSq
    push_cast
    ring_nf
  have h2 : getDistance q1 q2 = Real.sqrt ((distSq q1 q2 : ℚ) : ℝ) := by
    unfold getDistance distSq
    push_cast
    ring_nf
  have hA : (0 : ℝ) ≤ ((distSq p1 p2 : ℚ) : ℝ) := by
    have : (0 : ℚ) ≤ distSq p1 p2 := by unfold distSq; positivity
    exact_mod_cast this
  rw [h1, h2,
    show Real.sqrt ((distSq p1 p2 : ℚ) : ℝ) * (k : ℝ)
        = Real.sqrt (((distSq p1 p2 : ℚ) : ℝ) * ((k : ℝ))^2) by
      rw [Real.sqrt_mul hA, Real.sqrt_sq_eq_abs, abs_of_nonneg (by exact_mod_cast hk)],
    Real.sqrt_lt_sqrt_iff (by positivity)]
  constructor <;> intro h <;> exact_mod_cast h

/-- C1: for every gesture frame with a detected hand, an extended-finger
count of at least 3 emits the SCATTERED state, a count of at most 1 emits
the TREE_SHAPE (tree/axis) state, and a count of exactly 2 emits nothing so
the previously emitted discrete state persists; a frame with no detected
hand emits nothing and marks the hand inactive. -/
theorem C1_gesture_classifier (refs : GestureRefs) (h : HandFrame) (cur : TreeMorphState) :
    (3 ≤ extendedFingers h →
      onResults refs (some h) = (⟨true, (h.lm 0).x⟩, some TreeMorphState.SCATTERED)) ∧
    (extendedFingers h ≤ 1 →
      onResults refs (some h) = (⟨true, (h.lm 0).x⟩, some TreeMorphState.TREE_SHAPE)) ∧
    (extendedFingers h = 2 →
      onResults refs (some h) = (⟨true, (h.lm 0).x⟩, none) ∧
      applyEmission cur (onResults refs (some h)).2 = cur) ∧
    onResults refs none = (⟨false, refs.handX⟩, none) := by
  refine ⟨fun h3 => by simp [onResults, h3], fun hle => ?_, fun h2 => ?_, rfl⟩
  · have hn3 : ¬ 3 ≤ extendedFingers h := by omega
    simp [onResults, hn3, hle]
  · have hn3 : ¬ 3 ≤ extendedFingers h := by omega
    have hn1 : ¬ extendedFingers h ≤ 1 := by omega
    refine ⟨by simp [onResults, hn3, hn1], ?_⟩
    simp [onResults, hn3, hn1, applyEmission]

/-- C1 witness: concrete frames with 4, 0 and 2 extended fingers evaluated
on the embedded classifier. -/
theorem C1_gesture_classifier_witness :
    onResults ⟨false, 0⟩ (some frameOpenHand) = (⟨true, 0⟩, some TreeMorphState.SCATTERED) ∧
    onResults ⟨false, 0⟩ (some frameFist) = (⟨true, 0⟩, some TreeMorphState.TREE_SHAPE) ∧
    onResults ⟨false, 0⟩ (some frameTwoFingers) = (⟨true, 0⟩, none) ∧
    applyEmission TreeMorphState.TREE_SHAPE (onResults ⟨false, 0⟩ (some frameTwoFingers)).2 =
      TreeMorphState.TREE_SHAPE := by
  have c1 : extendedFingers frameOpenHand = 4 := by
    norm_num [extendedFingers, distSq, frameOpenHand, fingerTips, List.filter]
  have c2 : extendedFingers frameFist = 0 := by
    norm_num [extendedFingers, distSq, frameFist, fingerTips, List.filter]
  have c3 : extendedFingers frameTwoFingers = 2 := by
    norm_num [extendedFingers, distSq, frameTwoFingers, fingerTips, List.filter]
  refine ⟨?_, ?_, ?_, ?_⟩
  · have := (C1_gesture_classifier ⟨false, 0⟩ frameOpenHand TreeMorphState.TREE_SHAPE).1
      (by omega)
    simpa [frameOpenHand] using this
  · have := (C1_gesture_classifier ⟨false, 0⟩ frameFist TreeMorphState.TREE_SHAPE).2.1
      (by omega)
    simpa [frameFist] using this
  · have := ((C1_gesture_classifier ⟨false, 0⟩ frameTwoFingers TreeMorphState.TREE_SHAPE).2.2.1
      c3).1
    simpa [frameTwoFingers] using this
  · exact ((C1_gesture_classifier ⟨false, 0⟩ frameTwoFingers TreeMorphState.TREE_SHAPE).2.2.1
      c3).2

/-- C9: a frame with an active photo drag still advances the shared morph
progress exactly as a frame without one: the early return that zeroes the
angular velocity and freezes the scene rotation happens after the progress
easing step, so a photo drag never pauses or alters morph progression. -/
theorem C9_progress_during_photo_drag (T : ℚ) (sd ha : Bool) (hx δ : ℚ) (s : SceneState) :
    (useFrameScene T true sd ha hx δ s).progress = progressStep s.progress T δ ∧
    (useFrameScene T true sd ha hx δ s).progress = (useFrameScene T false sd ha hx δ s).progress ∧
    (useFrameScene T true sd ha hx δ s).angularVelocity = 0 ∧
    (useFrameScene T true sd ha hx δ s).rotationY = s.rotationY := by
  refine ⟨rfl, ?_, rfl, rfl⟩
  cases sd <;> cases ha <;> simp [useFrameScene]

/-- C6 (amended): the double-click handler invokes the photo-click callback
exactly once with the ornament's photo identifier, regardless of the drag
state — it performs no drag-state check. -/
theorem C6_double_click {U : Type} (url : U) (s : PhotoState) :
    handleDoubleClick url s = (s, [url]) ∧
    (handleDoubleClick url s).2.length = 1 := ⟨rfl, rfl⟩

/-- C6 counterexample: with a drag active the handler still invokes the
photo-click callback once, contradicting the claim that a double-click
delivered during a drag does not invoke it. -/
theorem C6_double_click_counterexample :
    draggingPhotoState.isDragging = true ∧
    (handleDoubleClick (0 : ℕ) draggingPhotoState).2 = [0] ∧
    (handleDoubleClick (0 : ℕ) draggingPhotoState).2 ≠ [] := by
  refine ⟨rfl, rfl, by simp [handleDoubleClick]⟩

/-- C5 counterexample: a single update whose incoming source list repeats a
brand-new identifier creates one ornament per occurrence, so two ornaments
exist for one distinct identifier. -/
theorem C5_photo_collection_counterexample :
    (updatePhotoData (fun _ => 0) [0, 0] ([] : List (ℕ × ℕ))).map Prod.fst = [0, 0] ∧
    ¬ ((updatePhotoData (fun _ => 0) [0, 0] ([] : List (ℕ × ℕ))).map Prod.fst).Nodup := by
  constructor
  · decide
  · decide

lemma progressStep_sub (p T δ : ℚ) :
    T - progressStep p T δ = (T - p) * (1 - min (δ * (7/2)) 1) := by
  unfold progressStep lerpQ
  ring

lemma progressStep_between (p T δ : ℚ) (hδ : 0 ≤ δ) :
    min p T ≤ progressStep p T δ ∧ progressStep p T δ ≤ max p T := by
  have hf0 : 0 ≤ min (δ * (7/2)) 1 := le_min (by positivity) zero_le_one
  have hf1 : min (δ * (7/2)) 1 ≤ 1 := min_le_right _ _
  unfold progressStep lerpQ
  set f := min (δ * (7/2)) 1 with hfdef
  rcases le_total p T with h | h
  · rw [min_eq_left h, max_eq_right h]
    constructor
    · nlinarith
    · nlinarith
  · rw [min_eq_right h, max_eq_left h]
    constructor
    · nlinarith
    · nlinarith

lemma progressIter_mem (T : ℚ) (δ : ℕ → ℚ) (p0 : ℚ) (hp0 : 0 ≤ p0) (hp1 : p0 ≤ 1)
    (hT0 : 0 ≤ T) (hT1 : T ≤ 1) (hδ : ∀ n, 0 ≤ δ n) (n : ℕ) :
    0 ≤ progressIter T δ p0 n ∧ progressIter T δ p0 n ≤ 1 := by
  induction n with
  | zero => exact ⟨hp0, hp1⟩
  | succ n ih =>
    obtain ⟨hlo, hhi⟩ := progressStep_between (progressIter T δ p0 n) T (δ n) (hδ n)
    exact ⟨le_trans (le_min ih.1 hT0) hlo, le_trans hhi (max_le ih.2 hT1)⟩

lemma progressStep_dist_le (p T δ δ0 : ℚ) (hδ0 : 0 ≤ δ0) (hδ : δ0 ≤ δ) :
    |T - progressStep p T δ| ≤ (1 - min (δ0 * (7/2)) 1) * |T - p| := by
  have hf1 : min (δ * (7/2)) 1 ≤ 1 := min_le_right _ _
  have hmono : min (δ0 * (7/2)) 1 ≤ min (δ * (7/2)) 1 :=
    min_le_min (by nlinarith) le_rfl
  rw [progressStep_sub, abs_mul, abs_of_nonneg (by linarith : (0:ℚ) ≤ 1 - min (δ * (7/2)) 1)]
  have := abs_nonneg (T - p)
  nlinarith

lemma progressIter_dist_le (T : ℚ) (δ : ℕ → ℚ) (p0 δ0 : ℚ)
    (hδ0 : 0 ≤ δ0) (hδ : ∀ n, δ0 ≤ δ n) (n : ℕ) :
    |T - progressIter T δ p0 n| ≤ (1 - min (δ0 * (7/2)) 1)^n * |T - p0| := by
  have hf0 : 0 ≤ min (δ0 * (7/2)) 1 := le_min (by positivity) zero_le_one
  have hf1 : min (δ0 * (7/2)) 1 ≤ 1 := min_le_right _ _
  induction n with
  | zero =>
    rw [pow_zero, one_mul]
    exact le_refl _
  | succ n ih =>
    calc |T - progressIter T δ p0 (n + 1)|
        ≤ (1 - min (δ0 * (7/2)) 1) * |T - progressIter T δ p0 n| :=
          progressStep_dist_le _ T (δ n) δ0 hδ0 (hδ n)
      _ ≤ (1 - min (δ0 * (7/2)) 1) * ((1 - min (δ0 * (7/2)) 1)^n * |T - p0|) :=
          mul_le_mul_of_nonneg_left ih (by linarith)
      _ = (1 - min (δ0 * (7/2)) 1)^(n + 1) * |T - p0| := by ring

lemma geom_forces_small (r B : ℚ) (hr0 : 0 ≤ r) (hr1 : r < 1) (hB : 0 ≤ B)
    (u : ℕ → ℚ) (hub : ∀ n, u n ≤ r^n * B)
    (ε : ℚ) (hε : 0 < ε) : ∃ N, ∀ n, N ≤ n → u n < ε := by
  have hB1 : (0:ℚ) < B + 1 := by linarith
  obtain ⟨N, hN⟩ := exists_pow_lt_of_lt_one (div_pos hε hB1) hr1
  refine ⟨N, fun n hn => ?_⟩
  have h2 : r^n ≤ r^N := pow_le_pow_of_le_one hr0 (le_of_lt hr1) hn
  have h3 : r^n * B ≤ r^N * B := mul_le_mul_of_nonneg_right h2 hB
  have h4 : r^N * B ≤ r^N * (B + 1) := by
    have : (0:ℚ) ≤ r^N := pow_nonneg hr0 N
    nlinarith
  have h5 : r^N * (B + 1) < (ε / (B + 1)) * (B + 1) :=
    mul_lt_mul_of_pos_right hN hB1
  have h6 : (ε / (B + 1)) * (B + 1) = ε := div_mul_cancel₀ ε (ne_of_gt hB1)
  calc u n ≤ r^n * B := hub n
    _ ≤ r^N * B := h3
    _ ≤ r^N * (B + 1) := h4
    _ < ε := by rw [← h6]; exact h5

/-- C2 (amended): with a target fixed at 0 or 1, an initial progress in
[0,1] and any nonnegative frame times, the morph progress stays in [0,1]
and each update moves it toward the target without overshooting (the
per-frame easing fraction is clamped to at most 1); when the frame times
are in addition bounded below by some positive δ0, the progress converges
to the target within any ε > 0. -/
theorem C2_morph_progress (T : ℚ) (δ : ℕ → ℚ) (p0 : ℚ)
    (hp0 : 0 ≤ p0) (hp1 : p0 ≤ 1) (hT : T = 0 ∨ T = 1)
    (hδn : ∀ n, 0 ≤ δ n) :
    (∀ n, 0 ≤ progressIter T δ p0 n ∧ progressIter T δ p0 n ≤ 1) ∧
    (∀ n, min (progressIter T δ p0 n) T ≤ progressIter T δ p0 (n + 1) ∧
          progressIter T δ p0 (n + 1) ≤ max (progressIter T δ p0 n) T ∧
          |T - progressIter T δ p0 (n + 1)| ≤ |T - progressIter T δ p0 n|) ∧
    (∀ δ0 : ℚ, 0 < δ0 → (∀ n, δ0 ≤ δ n) →
      ∀ ε : ℚ, 0 < ε → ∃ N, ∀ n, N ≤ n → |T - progressIter T δ p0 n| < ε) := by
  have hT0 : (0:ℚ) ≤ T := by rcases hT with h | h <;> rw [h] <;> norm_num
  have hT1 : T ≤ 1 := by rcases hT with h | h <;> rw [h] <;> norm_num
  refine ⟨progressIter_mem T δ p0 hp0 hp1 hT0 hT1 hδn, fun n => ?_,
    fun δ0 hδ0 hδ ε hε => ?_⟩
  · obtain ⟨hlo, hhi⟩ := progressStep_between (progressIter T δ p0 n) T (δ n) (hδn n)
    refine ⟨hlo, hhi, ?_⟩
    have hstep : progressIter T δ p0 (n + 1) = progressStep (progressIter T δ p0 n) T (δ n) := rfl
    rw [hstep]
    have h1 := progressStep_dist_le (progressIter T δ p0 n) T (δ n) (δ n) (hδn n) le_rfl
    have hf0 : 0 ≤ min (δ n * (7/2)) 1 := le_min (by nlinarith [hδn n]) zero_le_one
    have := abs_nonneg (T - progressIter T δ p0 n)
    nlinarith [mul_nonneg hf0 this]
  · have hf0 : 0 ≤ min (δ0 * (7/2)) 1 := le_min (by nlinarith) zero_le_one
    have hfpos : 0 < min (δ0 * (7/2)) 1 := lt_min (by nlinarith) one_pos
    have hf1 : min (δ0 * (7/2)) 1 ≤ 1 := min_le_right _ _
    exact geom_forces_small (1 - min (δ0 * (7/2)) 1) |T - p0| (by linarith) (by linarith)
      (abs_nonneg _) (fun n => |T - progressIter T δ p0 n|)
      (progressIter_dist_le T δ p0 δ0 (le_of_lt hδ0) hδ) ε hε

/-- C2 witness: target 1, start 0, constant frame time 1 (easing fraction
clamps to 1): the progress is in range at every step and reaches the target
within ε = 1/1000 from some frame on. -/
theorem C2_morph_progress_witness :
    (0 ≤ progressIter 1 (fun _ => 1) 0 5 ∧ progressIter 1 (fun _ => 1) 0 5 ≤ 1) ∧
    (∃ N, ∀ n, N ≤ n → |1 - progressIter 1 (fun _ => 1) 0 n| < 1/1000) := by
  have h := C2_morph_progress 1 (fun _ => 1) 0 (le_refl 0) (by norm_num) (Or.inr rfl)
    (fun n => by norm_num)
  exact ⟨h.1 5, h.2.2 1 one_pos (fun n => le_refl 1) (1/1000) (by norm_num)⟩

lemma progressIter_zero_delta (n : ℕ) : progressIter 1 (fun _ => 0) 0 n = 0 := by
  induction n with
  | zero => rfl
  | succ n ih =>
    show progressStep (progressIter 1 (fun _ => 0) 0 n) 1 0 = 0
    rw [ih]
    norm_num [progressStep, lerpQ]

/-- C2 counterexample: the claim as stated quantifies over all frame-time
sequences with δ ≥ 0; with every frame time equal to 0 the progress never
moves, so it does not converge to the fixed target 1 within ε = 1/2. -/
theorem C2_morph_progress_counterexample :
    ¬ (∀ (δ : ℕ → ℚ), (∀ n, 0 ≤ δ n) →
        ∀ ε : ℚ, 0 < ε → ∃ N, ∀ n, N ≤ n → |1 - progressIter 1 δ 0 n| < ε) := by
  intro hcl
  obtain ⟨N, hN⟩ := hcl (fun _ => 0) (fun _ => le_refl 0) (1/2) (by norm_num)
  have := hN N le_rfl
  rw [progressIter_zero_delta N] at this
  norm_num at this

lemma useFrameScene_noInput_vel (T hx δ : ℚ) (s : SceneState) :
    (useFrameScene T false false false hx δ s).angularVelocity =
      (if |s.angularVelocity * (96/100)| < 6/100
       then lerpQ (s.angularVelocity * (96/100)) (6/100) (5/100)
       else s.angularVelocity * (96/100)) := by
  simp [useFrameScene]

lemma useFrameScene_noInput_rot (T hx δ : ℚ) (s : SceneState) :
    (useFrameScene T false false false hx δ s).rotationY =
      s.rotationY + (useFrameScene T false false false hx δ s).angularVelocity * δ := by
  simp [useFrameScene]

lemma velStep_contract (v : ℚ) :
    |(if |v * (96/100)| < 6/100
       then lerpQ (v * (96/100)) (6/100) (5/100)
       else v * (96/100)) - 3/88|
      ≤ (39/40) * |v - 3/88| := by
  by_cases hc : |v * (96/100)| < 6/100
  · rw [if_pos hc]
    have hexp : lerpQ (v * (96/100)) (6/100) (5/100) - 3/88 = (114/125) * (v - 3/88) := by
      unfold lerpQ
      ring
    rw [hexp, abs_mul, show |(114:ℚ)/125| = 114/125 by norm_num]
    nlinarith [abs_nonneg (v - 3/88)]
  · rw [if_neg hc]
    push_neg at hc
    rw [abs_mul, show |(96:ℚ)/100| = 96/100 by norm_num] at hc
    have hv : 1/16 ≤ |v| := by nlinarith
    rcases le_or_lt 0 v with hv0 | hv0
    · have hvv : 1/16 ≤ v := by rwa [abs_of_nonneg hv0] at hv
      rw [abs_of_nonneg (by linarith : (0:ℚ) ≤ v * (96/100) - 3/88),
          abs_of_nonneg (by linarith : (0:ℚ) ≤ v - 3/88)]
      linarith
    · have hvv : v ≤ -(1/16) := by
        rw [abs_of_neg hv0] at hv
        linarith
      rw [abs_of_nonpos (by linarith : v * (96/100) - 3/88 ≤ 0),
          abs_of_nonpos (by linarith : v - 3/88 ≤ 0)]
      linarith

lemma velStep_strict_decrease (v : ℚ) (hv : 6/100 < |v|) :
    |(if |v * (96/100)| < 6/100
       then lerpQ (v * (96/100)) (6/100) (5/100)
       else v * (96/100))| < |v| := by
  by_cases hc : |v * (96/100)| < 6/100
  · rw [if_pos hc]
    have hexp : lerpQ (v * (96/100)) (6/100) (5/100) = (19/20) * (v * (96/100)) + 3/1000 := by
      unfold lerpQ
      ring
    calc |lerpQ (v * (96/100)) (6/100) (5/100)|
        ≤ (19/20) * |v * (96/100)| + 3/1000 := by
          rw [hexp]
          calc |(19/20) * (v * (96/100)) + 3/1000|
              ≤ |(19/20) * (v * (96/100))| + |(3:ℚ)/1000| := abs_add _ _
            _ = (19/20) * |v * (96/100)| + 3/1000 := by
                rw [abs_mul, show |(19:ℚ)/20| = 19/20 by norm_num,
                  show |(3:ℚ)/1000| = 3/1000 by norm_num]
      _ < (19/20) * (6/100) + 3/1000 := by nlinarith
      _ = 6/100 := by norm_num
      _ < |v| := hv
  · rw [if_neg hc, abs_mul, show |(96:ℚ)/100| = 96/100 by norm_num]
    nlinarith [abs_nonneg v]

lemma sceneNoInputIter_vel_bound (T hx δ : ℚ) (s : SceneState) (n : ℕ) :
    |(sceneNoInputIter T hx δ s n).angularVelocity - 3/88| ≤
      (39/40)^n * |s.angularVelocity - 3/88| := by
  induction n with
  | zero =>
    rw [pow_zero, one_mul]
    exact le_refl _
  | succ n ih =>
    have hstep : (sceneNoInputIter T hx δ s (n + 1)).angularVelocity =
        (if |(sceneNoInputIter T hx δ s n).angularVelocity * (96/100)| < 6/100
         then lerpQ ((sceneNoInputIter T hx δ s n).angularVelocity * (96/100)) (6/100) (5/100)
         else (sceneNoInputIter T hx δ s n).angularVelocity * (96/100)) :=
      useFrameScene_noInput_vel T hx δ _
    rw [hstep]
    calc |(if |(sceneNoInputIter T hx δ s n).angularVelocity * (96/100)| < 6/100
            then lerpQ ((sceneNoInputIter T hx δ s n).angularVelocity * (96/100)) (6/100) (5/100)
            else (sceneNoInputIter T hx δ s n).angularVelocity * (96/100)) - 3/88|
        ≤ (39/40) * |(sceneNoInputIter T hx δ s n).angularVelocity - 3/88| :=
          velStep_contract _
      _ ≤ (39/40) * ((39/40)^n * |s.angularVelocity - 3/88|) :=
          mul_le_mul_of_nonneg_left ih (by norm_num)
      _ = (39/40)^(n + 1) * |s.angularVelocity - 3/88| := by ring

/-- C7 (amended): on frames with no drag input, no gesture input and no
photo drag, the angular-velocity magnitude strictly decreases whenever it
exceeds the idle-drift speed 0.06, and the rotation angle advances by
velocity times elapsed time; over successive such frames the velocity
converges geometrically to the fixed point 3/88 ≈ 0.034 — a positive value
strictly below the idle-drift speed — rather than to the idle-drift speed
or to zero. -/
theorem C7_rotation_friction (T hx δ : ℚ) (s : SceneState) (n : ℕ) :
    (6/100 < |s.angularVelocity| →
      |(useFrameScene T false false false hx δ s).angularVelocity| < |s.angularVelocity|) ∧
    ((useFrameScene T false false false hx δ s).rotationY =
      s.rotationY + (useFrameScene T false false false hx δ s).angularVelocity * δ) ∧
    (|(sceneNoInputIter T hx δ s n).angularVelocity - 3/88| ≤
      (39/40)^n * |s.angularVelocity - 3/88|) ∧
    ((0:ℚ) < 3/88 ∧ (3:ℚ)/88 < 6/100) ∧
    (∀ ε : ℚ, 0 < ε → ∃ N, ∀ k, N ≤ k →
      |(sceneNoInputIter T hx δ s k).angularVelocity - 3/88| < ε) := by
  refine ⟨?_, useFrameScene_noInput_rot T hx δ s, sceneNoInputIter_vel_bound T hx δ s n,
    ⟨by norm_num, by norm_num⟩, fun ε hε => ?_⟩
  · intro hv
    rw [useFrameScene_noInput_vel]
    exact velStep_strict_decrease s.angularVelocity hv
  · exact geom_forces_small (39/40) |s.angularVelocity - 3/88| (by norm_num) (by norm_num)
      (abs_nonneg _) _ (sceneNoInputIter_vel_bound T hx δ s) ε hε

/-- C7 witness: starting from velocity 1 with no inputs, the first frame
strictly shrinks the magnitude, and the velocity ends up within 1/1000 of
the fixed point 3/88 from some frame on. -/
theorem C7_rotation_friction_witness :
    |(useFrameScene 0 false false false 0 1 ⟨0, 1, 0, 0⟩).angularVelocity| < |(1:ℚ)| ∧
    (∃ N, ∀ k, N ≤ k →
      |(sceneNoInputIter 0 0 1 ⟨0, 1, 0, 0⟩ k).angularVelocity - 3/88| < 1/1000) := by
  have h := C7_rotation_friction 0 0 1 ⟨0, 1, 0, 0⟩ 0
  exact ⟨h.1 (by norm_num), h.2.2.2.2 (1/1000) (by norm_num)⟩

lemma velStep_fixed (s : SceneState) (h : s.angularVelocity = 3/88) :
    (useFrameScene 0 false false false 0 1 s).angularVelocity = 3/88 := by
  rw [useFrameScene_noInput_vel, h,
    show (3:ℚ)/88 * (96/100) = 9/275 by norm_num,
    abs_of_nonneg (by norm_num : (0:ℚ) ≤ 9/275),
    if_pos (by norm_num : (9:ℚ)/275 < 6/100)]
  norm_num [lerpQ]

lemma sceneNoInputIter_fixed (n : ℕ) :
    (sceneNoInputIter 0 0 1 ⟨0, 3/88, 0, 0⟩ n).angularVelocity = 3/88 := by
  induction n with
  | zero => rfl
  | succ n ih => exact velStep_fixed _ ih

/-- C7 counterexample: starting exactly at the fixed point 3/88 with no
inputs, the velocity stays at 3/88 on every frame, so it never approaches
the idle-drift speed 0.06: it stays at distance 57/2200 > 1/100 forever,
refuting the claim that the velocity approaches the idle-drift speed. -/
theorem C7_rotation_friction_counterexample :
    (useFrameScene 0 false false false 0 1 ⟨0, 3/88, 0, 0⟩).angularVelocity = 3/88 ∧
    ¬ (∀ ε : ℚ, 0 < ε → ∃ N, ∀ n, N ≤ n →
        |(sceneNoInputIter 0 0 1 ⟨0, 3/88, 0, 0⟩ n).angularVelocity - 6/100| < ε) := by
  constructor
  · exact velStep_fixed _ rfl
  · intro hcl
    obtain ⟨N, hN⟩ := hcl (1/100) (by norm_num)
    have h := hN N le_rfl
    rw [sceneNoInputIter_fixed N,
      show (3:ℚ)/88 - 6/100 = -(57/2200) by norm_num, abs_neg,
      abs_of_nonneg (by norm_num : (0:ℚ) ≤ 57/2200)] at h
    norm_num at h

lemma smoothstepG_zero_one_at_one : smoothstepG 0 1 1 = 1 := by
  norm_num [smoothstepG, clampR]

lemma smoothstepG_explosion_at_one : smoothstepG (8/10) 0 1 = 0 := by
  norm_num [smoothstepG, clampR]

lemma smoothstepG_zero_one_at_zero : smoothstepG 0 1 0 = 0 := by
  norm_num [smoothstepG, clampR]

lemma smoothstepG_zero_one_eval (x : ℝ) (h0 : 0 ≤ x) (h1 : x ≤ 1) :
    smoothstepG 0 1 x = x * x * (3 - 2 * x) := by
  rw [smoothstepG, clampR]
  norm_num [max_eq_left h0, min_eq_left h1]

lemma smoothstepG_zero_one_strict (a b : ℝ) (h0 : 0 ≤ a) (hab : a < b) (hb : b ≤ 1) :
    smoothstepG 0 1 a < smoothstepG 0 1 b := by
  rw [smoothstepG_zero_one_eval a h0 (by linarith),
    smoothstepG_zero_one_eval b (by linarith) hb]
  have ha1 : a < 1 := lt_of_lt_of_le hab hb
  have hb0 : 0 < b := lt_of_le_of_lt h0 hab
  have key : 0 < 3 * (a + b) - 2 * (a^2 + a * b + b^2) := by
    have h1 : 0 ≤ a * (1 - b) := mul_nonneg h0 (by linarith)
    have h2 : 0 < b * (1 - a) := mul_pos hb0 (by linarith)
    nlinarith [mul_nonneg h0 (by linarith : (0:ℝ) ≤ 1 - a), mul_nonneg hb0.le (by linarith : (0:ℝ) ≤ 1 - b)]
  nlinarith [sub_pos.2 hab]

lemma foliage_fade_saturated (p : ℝ) (h0 : 0 ≤ p) :
    smoothstepG 0 (1/10) (p * (5/10) + 5/10) = 1 := by
  rw [smoothstepG, clampR]
  have harg : (1:ℝ) ≤ (p * (5/10) + 5/10 - 0) / (1/10 - 0) := by
    rw [show (1:ℝ)/10 - 0 = 1/10 by norm_num]
    rw [le_div_iff (by norm_num : (0:ℝ) < 1/10)]
    linarith
  rw [max_eq_left (by linarith), min_eq_right harg]
  norm_num

lemma mixV_one (a b : Vec3) : mixV a b 1 = b := by
  ext <;> simp [mixV, mixR]

/-- Evaluation of the foliage vertex shader at full progress: the
interpolation reaches the tree position, the explosion and chaos terms
vanish, and the breathing term keeps the residual factor `1.1 - 1 = 0.1`,
leaving a radial oscillation of amplitude `15 * 0.1 * 0.2 = 0.3`. -/
lemma foliagePosition_at_one (uTime : ℝ) (scat tree : Vec3) (phase : ℝ) :
    foliagePosition uTime 1 scat tree phase =
      tree + ((3/10) * Real.sin (uTime * (15/10) + phase)) • tree.normalize := by
  ext <;>
    simp only [foliagePosition, smoothstepG_zero_one_at_one, smoothstepG_explosion_at_one,
      mixV_one, sub_self, zero_mul, mul_zero, add_zero, zero_add,
      Vec3.add_x, Vec3.add_y, Vec3.add_z, Vec3.smul_x, Vec3.smul_y, Vec3.smul_z, Vec3.eta] <;>
    ring

/-- C3 (amended): at shader progress input 1 the interpolation reaches the
tree position and the explosion and chaos terms vanish, but the breathing
term is scaled by `(1.1 - blendFactor)`, not `(1 - blendFactor)`: the
computed position equals the tree position plus a residual radial
oscillation `0.3 * sin (1.5 * t + phase)` along the tree position's unit
direction, of norm at most 0.3, for every time t. -/
theorem C3_full_morph (uTime : ℝ) (scat tree : Vec3) (phase : ℝ) :
    foliagePosition uTime 1 scat tree phase =
      tree + ((3/10) * Real.sin (uTime * (15/10) + phase)) • tree.normalize ∧
    (tree ≠ ⟨0, 0, 0⟩ →
      (foliagePosition uTime 1 scat tree phase - tree).length ≤ 3/10) := by
  refine ⟨foliagePosition_at_one uTime scat tree phase, fun htree => ?_⟩
  rw [foliagePosition_at_one]
  have hdiff : tree + ((3/10) * Real.sin (uTime * (15/10) + phase)) • tree.normalize - tree
      = ((3/10) * Real.sin (uTime * (15/10) + phase)) • tree.normalize := by
    ext <;> simp <;> ring
  rw [hdiff, Vec3.length_smul, Vec3.length_normalize tree htree, mul_one, abs_mul,
    show |(3:ℝ)/10| = 3/10 by norm_num]
  nlinarith [Real.abs_sin_le_one (uTime * (15/10) + phase)]

/-- C3 witness: a concrete particle with tree position (4000, 0, 0) at
full progress stays within 0.3 of its tree position. -/
theorem C3_full_morph_witness :
    (foliagePosition 0 1 ⟨4500, 0, 0⟩ ⟨4000, 0, 0⟩ 0 - ⟨4000, 0, 0⟩).length ≤ 3/10 :=
  (C3_full_morph 0 ⟨4500, 0, 0⟩ ⟨4000, 0, 0⟩ 0).2 (by
    intro h
    have := congrArg Vec3.x h
    norm_num at this)

/-- C3 counterexample: at progress 1, time 0 and phase π/2, a particle with
tree position (4000, 0, 0) is rendered at (4000.3, 0, 0), not at its tree
position: the breathing term does not vanish at full morph progress. -/
theorem C3_full_morph_counterexample :
    foliagePosition 0 1 ⟨4500, 0, 0⟩ ⟨4000, 0, 0⟩ (Real.pi / 2) ≠ ⟨4000, 0, 0⟩ := by
  rw [foliagePosition_at_one]
  intro h
  have hx := congrArg Vec3.x h
  have hs : Real.sin (0 * (15/10) + Real.pi / 2) = 1 := by
    rw [zero_mul, zero_add, Real.sin_pi_div_two]
  have hlen : (Vec3.length ⟨4000, 0, 0⟩ : ℝ) = 4000 := by
    rw [Vec3.length, show ((4000:ℝ)^2 + 0^2 + 0^2) = 4000^2 by norm_num,
      Real.sqrt_sq (by norm_num : (0:ℝ) ≤ 4000)]
  simp only [Vec3.normalize, Vec3.add_x, Vec3.smul_x, hlen, hs] at hx
  norm_num at hx

/-- C8 (amended): the foliage alpha strictly increases as the blend factor
decreases toward 0 (the blend factor is strictly monotone in the progress
on [0,1]), but it does not fade in from zero: the fade factor
`smoothstep (0, 0.1, uProgress * 0.5 + 0.5)` saturates at 1 for every
progress ≥ 0, and at the initial progress value 0 the alpha equals 1. -/
theorem C8_alpha (p p1 p2 : ℝ) (hp0 : 0 ≤ p) (hp1 : p ≤ 1)
    (h10 : 0 ≤ p1) (h12 : p1 < p2) (h21 : p2 ≤ 1) :
    foliageAlpha p = 75/100 + 25/100 * (1 - smoothstepG 0 1 p) ∧
    smoothstepG 0 1 p1 < smoothstepG 0 1 p2 ∧
    foliageAlpha p2 < foliageAlpha p1 ∧
    foliageAlpha 0 = 1 := by
  have heq : ∀ q : ℝ, 0 ≤ q →
      foliageAlpha q = 75/100 + 25/100 * (1 - smoothstepG 0 1 q) := by
    intro q hq
    simp only [foliageAlpha]
    rw [foliage_fade_saturated q hq, mul_one]
  have hstrict := smoothstepG_zero_one_strict p1 p2 h10 h12 h21
  refine ⟨heq p hp0, hstrict, ?_, ?_⟩
  · rw [heq p1 h10, heq p2 (le_trans h10 (le_of_lt h12))]
    linarith
  · rw [heq 0 le_rfl, smoothstepG_zero_one_at_zero]
    norm_num

/-- C8 witness: the alpha at progress 1 (blend factor 1) is strictly below
the alpha at progress 0 (blend factor 0). -/
theorem C8_alpha_witness : foliageAlpha 1 < foliageAlpha 0 :=
  (C8_alpha 0 0 1 le_rfl (by norm_num) le_rfl (by norm_num) le_rfl).2.2.1

/-- C8 counterexample: at the initial progress value 0 the computed alpha
is 1, not 0 — the shader never fades in from zero on [0,1]. -/
theorem C8_alpha_counterexample : foliageAlpha 0 = 1 ∧ (1:ℝ) ≠ 0 := by
  constructor
  · simp only [foliageAlpha]
    rw [foliage_fade_saturated 0 le_rfl, smoothstepG_zero_one_at_zero]
    norm_num
  · norm_num

lemma handlePointerMove_isDragging (w2l : Vec3 → Vec3) (hit : Option Vec3) (s : PhotoState) :
    (handlePointerMove w2l hit s).isDragging = s.isDragging := by
  rcases hit with _ | inter <;> by_cases hd : s.isDragging <;>
    simp [handlePointerMove, hd]

lemma handlePointerMove_dragOffset (w2l : Vec3 → Vec3) (hit : Option Vec3) (s : PhotoState) :
    (handlePointerMove w2l hit s).dragOffset = s.dragOffset := by
  rcases hit with _ | inter <;> by_cases hd : s.isDragging <;>
    simp [handlePointerMove, hd]

lemma applyMoves_isDragging (w2l : Vec3 → Vec3) (hits : List Vec3) (s : PhotoState) :
    (applyMoves w2l hits s).isDragging = s.isDragging := by
  induction hits generalizing s with
  | nil => rfl
  | cons h t ih =>
    show (applyMoves w2l t (handlePointerMove w2l (some h) s)).isDragging = s.isDragging
    rw [ih, handlePointerMove_isDragging]

lemma applyMoves_dragOffset (w2l : Vec3 → Vec3) (hits : List Vec3) (s : PhotoState) :
    (applyMoves w2l hits s).dragOffset = s.dragOffset := by
  induction hits generalizing s with
  | nil => rfl
  | cons h t ih =>
    show (applyMoves w2l t (handlePointerMove w2l (some h) s)).dragOffset = s.dragOffset
    rw [ih, handlePointerMove_dragOffset]

lemma lerpV_sub (a b : Vec3) (r : ℝ) : lerpV a b r - b = (1 - r) • (a - b) := by
  ext <;> simp [lerpV, lerpR] <;> ring

/-- C4: a pointer-down (with recorded grab offset), any nonempty sequence
of pointer-moves whose ray/drag-plane intersections succeed, then a
pointer-up leaves the ornament's stored tree position equal to the last
intersection point offset by the grab offset and transformed into the
parent frame, with the drag ended; and a subsequent non-dragging frame
moves the rendered position toward the computed target by a lerp of rate
0.08 < 1 — the distance to the target contracts by the factor 0.92 and the
position does not jump to the target in one frame. -/
theorem C4_ornament_drag (w2l : Vec3 → Vec3) (worldPos i0 : Vec3) (hits : List Vec3)
    (hLast : Vec3) (s0 : PhotoState) (t progress globalScale : ℝ) (s : PhotoState) :
    ((handlePointerUp (applyMoves w2l (hits ++ [hLast])
        (handlePointerDown worldPos (some i0) s0))).dataTree =
          w2l (hLast + (worldPos - i0)) ∧
      (handlePointerUp (applyMoves w2l (hits ++ [hLast])
        (handlePointerDown worldPos (some i0) s0))).isDragging = false) ∧
    (s.isDragging = false →
      (photoUseFrame t progress globalScale s).meshPos =
        lerpV s.meshPos (photoTargetPos t progress s) (8/100) ∧
      ((photoUseFrame t progress globalScale s).meshPos - photoTargetPos t progress s).length =
        (1 - 8/100) * (s.meshPos - photoTargetPos t progress s).length ∧
      (8/100 : ℝ) < 1 ∧
      (s.meshPos ≠ photoTargetPos t progress s →
        (photoUseFrame t progress globalScale s).meshPos ≠ photoTargetPos t progress s)) := by
  constructor
  · set s1 := handlePointerDown worldPos (some i0) s0 with hs1
    have hdrag1 : s1.isDragging = true := rfl
    have hoff1 : s1.dragOffset = worldPos - i0 := rfl
    set s2 := applyMoves w2l hits s1 with hs2
    have hdrag2 : s2.isDragging = true := by
      rw [hs2, applyMoves_isDragging, hdrag1]
    have hoff2 : s2.dragOffset = worldPos - i0 := by
      rw [hs2, applyMoves_dragOffset, hoff1]
    have hsplit : applyMoves w2l (hits ++ [hLast]) s1 =
        handlePointerMove w2l (some hLast) s2 := by
      rw [hs2, applyMoves, applyMoves, List.foldl_append, List.foldl_cons, List.foldl_nil]
    have hmove : handlePointerMove w2l (some hLast) s2 =
        { s2 with dataTree := w2l (hLast + s2.dragOffset) } := by
      simp [handlePointerMove, hdrag2]
    have hup : ∀ st : PhotoState, st.isDragging = true →
        handlePointerUp st = { st with isDragging := false } := by
      intro st hst
      simp [handlePointerUp, hst]
    rw [hsplit, hmove, hup _ (by simp [hdrag2]), hoff2]
    exact ⟨rfl, rfl⟩
  · intro hnd
    have htgt : (photoUseFrame t progress globalScale s).meshPos =
        lerpV s.meshPos (photoTargetPos t progress s) (8/100) := by
      simp only [photoUseFrame, hnd]
      norm_num
    refine ⟨htgt, ?_, by norm_num, ?_⟩
    · rw [htgt, lerpV_sub, Vec3.length_smul,
        show |(1:ℝ) - 8/100| = 1 - 8/100 by norm_num]
    · intro hne hEq
      have hlen0 : ((photoUseFrame t progress globalScale s).meshPos -
          photoTargetPos t progress s).length = 0 := by
        rw [hEq, Vec3.length]
        norm_num
      rw [htgt, lerpV_sub, Vec3.length_smul,
        show |(1:ℝ) - 8/100| = 1 - 8/100 by norm_num] at hlen0
      have hm : (s.meshPos - photoTargetPos t progress s).length = 0 := by nlinarith
      exact hne ((Vec3.sub_eq_zero_iff _ _).1 ((Vec3.length_eq_zero_iff _).1 hm))

/-- C4 witness: a one-move drag from the idle state lands the tree position
on the move's intersection plus the grab offset (identity parent frame),
and one idle frame lerps the rendered position toward the target with
rate 0.08. -/
theorem C4_ornament_drag_witness :
    (handlePointerUp (applyMoves id ([] ++ [⟨5, 6, 7⟩])
        (handlePointerDown ⟨1, 1, 1⟩ (some ⟨1, 1, 1⟩) idlePhotoState))).dataTree =
      id (⟨5, 6, 7⟩ + (⟨1, 1, 1⟩ - (⟨1, 1, 1⟩ : Vec3))) ∧
    (photoUseFrame 0 0 1 idlePhotoState).meshPos =
      lerpV idlePhotoState.meshPos (photoTargetPos 0 0 idlePhotoState) (8/100) :=
  ⟨((C4_ornament_drag id ⟨1, 1, 1⟩ ⟨1, 1, 1⟩ [] ⟨5, 6, 7⟩ idlePhotoState
      0 0 1 idlePhotoState).1).1,
   ((C4_ornament_drag id ⟨1, 1, 1⟩ ⟨1, 1, 1⟩ [] ⟨5, 6, 7⟩ idlePhotoState
      0 0 1 idlePhotoState).2 rfl).1⟩

/-- C5 (amended): on a photo-list update, an identifier that already has an
ornament gets no new ornament (its ornament count is unchanged); provided
the incoming source list has no duplicate identifiers, the resulting
collection has exactly one ornament per distinct identifier; updating with
exactly the current identifiers — in particular after removing an
identifier that has no ornament — is a no-op; and every kept ornament
retains its data record. -/
theorem C5_photo_collection {U α : Type} [DecidableEq U] (gen : U → α)
    (images : List U) (prev : List (U × α)) (url : U) (d : α) :
    (url ∈ prev.map Prod.fst → url ∈ images →
      (updatePhotoData gen images prev).countP (fun pr => decide (pr.1 = url)) =
        prev.countP (fun pr => decide (pr.1 = url))) ∧
    (images.Nodup → (prev.map Prod.fst).Nodup →
      ((updatePhotoData gen images prev).map Prod.fst).Nodup) ∧
    (updatePhotoData gen (prev.map Prod.fst) prev = prev) ∧
    (url ∉ images →
      updatePhotoData gen (images.filter fun u => decide (¬ u = url)) prev =
        updatePhotoData gen images prev) ∧
    ((url, d) ∈ prev → url ∈ images → (url, d) ∈ updatePhotoData gen images prev) := by
  refine ⟨?_, ?_, ?_, ?_, ?_⟩
  · intro hmem himg
    unfold updatePhotoData
    rw [List.countP_append]
    have hnew : (((images.filter fun u => decide (u ∉ prev.map Prod.fst)).map
        (fun u => (u, gen u))).countP fun pr => decide (pr.1 = url)) = 0 := by
      rw [List.countP_eq_zero]
      intro a ha
      rcases List.mem_map.1 ha with ⟨u, hu, rfl⟩
      have hu2 := (List.mem_filter.1 hu).2
      simp only [decide_eq_true_eq] at hu2 ⊢
      intro h
      rw [h] at hu2
      exact hu2 hmem
    rw [hnew, add_zero, List.countP_filter]
    have hfun : (fun pr : U × α => decide (pr.1 = url) && decide (pr.1 ∈ images))
        = fun pr : U × α => decide (pr.1 = url) := by
      funext pr
      by_cases h : pr.1 = url
      · simp [h, himg]
      · simp [h]
    rw [hfun]
  · intro himg hprev
    unfold updatePhotoData
    rw [List.map_append]
    have hmap : ((images.filter fun u => decide (u ∉ prev.map Prod.fst)).map
        (fun u => (u, gen u))).map Prod.fst =
          images.filter fun u => decide (u ∉ prev.map Prod.fst) := by
      rw [List.map_map]
      exact List.map_id' _
    rw [hmap]
    refine List.Nodup.append ?_ (himg.sublist (List.filter_sublist _)) ?_
    · exact hprev.sublist (List.Sublist.map Prod.fst (List.filter_sublist _))
    · rw [List.disjoint_left]
      intro a ha hb
      rcases List.mem_map.1 ha with ⟨pr, hpr, rfl⟩
      have hpr1 := List.mem_filter.1 hpr
      have hb2 := (List.mem_filter.1 hb).2
      simp only [decide_eq_true_eq] at hb2
      exact hb2 (List.mem_map_of_mem Prod.fst hpr1.1)
  · simp only [updatePhotoData]
    have h1 : ((prev.map Prod.fst).filter fun u => decide (u ∉ prev.map Prod.fst)) = [] := by
      rw [List.filter_eq_nil_iff]
      intro a ha
      simp only [decide_eq_true_eq, Decidable.not_not]
      exact ha
    have h2 : (prev.filter fun pr => decide (pr.1 ∈ prev.map Prod.fst)) = prev := by
      rw [List.filter_eq_self]
      intro pr hpr
      simp only [decide_eq_true_eq]
      exact List.mem_map_of_mem Prod.fst hpr
    rw [h1, h2]
    simp
  · intro hni
    have : (images.filter fun u => decide (¬ u = url)) = images := by
      rw [List.filter_eq_self]
      intro a ha
      simp only [decide_eq_true_eq]
      intro h
      rw [h] at ha
      exact hni ha
    rw [this]
  · intro hmem himg
    unfold updatePhotoData
    refine List.mem_append_left _ ?_
    rw [List.mem_filter]
    exact ⟨hmem, by simpa using himg⟩

/-- C5 witness: with one existing ornament (0, 5) and incoming list [0],
re-adding identifier 0 keeps a single ornament, the update is a no-op, and
the ornament keeps its data. -/
theorem C5_photo_collection_witness :
    (updatePhotoData (fun _ => (7 : ℕ)) [0] [((0 : ℕ), (5 : ℕ))]).countP
        (fun pr => decide (pr.1 = 0)) =
      ([((0 : ℕ), (5 : ℕ))] : List (ℕ × ℕ)).countP (fun pr => decide (pr.1 = 0)) ∧
    ((0 : ℕ), (5 : ℕ)) ∈ updatePhotoData (fun _ => (7 : ℕ)) [0] [((0 : ℕ), (5 : ℕ))] := by
  have h := C5_photo_collection (fun _ => (7 : ℕ)) [0] [((0 : ℕ), (5 : ℕ))] 0 5
  exact ⟨h.1 (by decide) (by decide), h.2.2.2.2 (by decide) (by decide)⟩

/-- C10: every gold-dust frame sets the hover uniform to 1 (it is never
reset), updates the smoothed pointer position by lerping toward the
intersection target — the freshly constructed zero vector when the ray
missed the plane, since the source's guard tests the always non-null target
vector rather than the intersection result — copies it into `uMouse`, and
after any nonempty frame sequence the hover uniform is 1; consequently the
shader applies the attraction pull toward `uMouse` to every particle whose
drifted position is within the attraction radius 1200, regardless of
whether the pointer currently intersects the plane. -/
theorem C10_dust_attraction (time : ℝ) (hit : Option Vec3) (s : DustState)
    (inps : List (ℝ × Option Vec3)) (s0 : DustState) (uT ph : ℝ) (pos : Vec3) :
    (goldDustFrame time hit s).uHover = 1 ∧
    (goldDustFrame time hit s).mousePos3D =
      lerpV s.mousePos3D (hit.getD ⟨0, 0, 0⟩) (1/10) ∧
    (goldDustFrame time hit s).uMouse = (goldDustFrame time hit s).mousePos3D ∧
    (inps ≠ [] →
      (inps.foldl (fun st q => goldDustFrame q.1 q.2 st) s0).uHover = 1) ∧
    ((dustBase uT ph pos - (goldDustFrame time hit s).uMouse).length < 1200 →
      dustPosition uT ((goldDustFrame time hit s).uMouse)
          ((goldDustFrame time hit s).uHover) ph pos =
        dustBase uT ph pos +
          (((1 - (dustBase uT ph pos - (goldDustFrame time hit s).uMouse).length / 1200)^2) *
              300) •
            ((goldDustFrame time hit s).uMouse - dustBase uT ph pos).normalize) := by
  refine ⟨rfl, rfl, rfl, ?_, ?_⟩
  · intro hne
    rcases List.eq_nil_or_concat' inps with h | ⟨L, b, rfl⟩
    · exact absurd h hne
    · rw [List.foldl_concat]
      rfl
  · intro hd
    rw [dustPosition]
    rw [if_pos ⟨hd, by rw [show (goldDustFrame time hit s).uHover = 1 from rfl]; norm_num⟩]

/-- C10 witness: one frame with no plane intersection still leaves the
hover uniform at 1, and with the smoothed pointer at (100, 0, 0) a particle
drifting through the origin (distance 100 < 1200) receives the attraction
offset. -/
theorem C10_dust_attraction_witness :
    (([((0 : ℝ), (none : Option Vec3))]).foldl
        (fun st q => goldDustFrame q.1 q.2 st) dustInit).uHover = 1 ∧
    dustPosition 0 ((goldDustFrame 0 (some ⟨1000, 0, 0⟩) dustInit).uMouse)
        ((goldDustFrame 0 (some ⟨1000, 0, 0⟩) dustInit).uHover) 0 ⟨-20, 0, 0⟩ =
      dustBase 0 0 ⟨-20, 0, 0⟩ +
        (((1 - (dustBase 0 0 ⟨-20, 0, 0⟩ -
              (goldDustFrame 0 (some ⟨1000, 0, 0⟩) dustInit).uMouse).length / 1200)^2) * 300) •
          ((goldDustFrame 0 (some ⟨1000, 0, 0⟩) dustInit).uMouse -
            dustBase 0 0 ⟨-20, 0, 0⟩).normalize := by
  constructor
  · exact (C10_dust_attraction 0 none dustInit [((0 : ℝ), none)] dustInit 0 0
      ⟨0, 0, 0⟩).2.2.2.1 (by simp)
  · refine (C10_dust_attraction 0 (some ⟨1000, 0, 0⟩) dustInit [] dustInit 0 0
      ⟨-20, 0, 0⟩).2.2.2.2 ?_
    have hbase : dustBase 0 0 ⟨-20, 0, 0⟩ = ⟨0, 0, 0⟩ := by
      simp only [dustBase]
      ext <;> simp <;> norm_num
    have hmouse : (goldDustFrame 0 (some ⟨1000, 0, 0⟩) dustInit).uMouse = ⟨100, 0, 0⟩ := by
      show lerpV dustInit.mousePos3D ⟨1000, 0, 0⟩ (1/10) = ⟨100, 0, 0⟩
      ext <;> simp [dustInit, lerpV, lerpR] <;> norm_num
    rw [hbase, hmouse]
    have hsub : ((⟨0, 0, 0⟩ : Vec3) - ⟨100, 0, 0⟩) = ⟨-100, 0, 0⟩ := by
      ext <;> simp
    rw [hsub]
    have hlen : (Vec3.length ⟨-100, 0, 0⟩ : ℝ) = 100 := by
      rw [Vec3.length, show ((-100:ℝ)^2 + 0^2 + 0^2) = 100^2 by norm_num,
        Real.sqrt_sq (by norm_num : (0:ℝ) ≤ 100)]
    rw [hlen]
    norm_num

end LifeCoords
